import Mathlib

/-!
Shallow embedding of `openqml/_optimize.py`: a family of first-order
gradient-descent optimizers (base, Momentum, Nesterov momentum, Adagrad,
RMSProp, Adam).

Parameter arrays are modelled as real-valued functions on an index type
`ι` (`Vec ι`); the numpy elementwise operations of the source act
pointwise.  The automatic-differentiation engine (`autograd.grad`) and a
user-supplied `grad_fn` are both black boxes that map a point to a
gradient array; the source calls exactly one of them at one point per
step, so both are modelled by a single oracle `gradFn : Vec ι → Vec ι`.
The gradient-reshape branch of `GradientDescentOptimizer.step` (which
depends on the array's shape) is modelled separately on an `NDArray`
carrier that records shapes, and the in-place-mutation aspects are
modelled on an explicit store of arrays further below.
-/

noncomputable section

/-- Elementwise real arrays over an index type. -/
def Vec (ι : Type) : Type := ι → ℝ

/-- Source `GradientDescentOptimizer.__init__`: holds only the stepsize. -/
structure GradientDescentOptimizer where
  stepsize : ℝ

/-- Source `GradientDescentOptimizer.apply_grad`: `return x - self.stepsize * grad`. -/
def GradientDescentOptimizer.apply_grad {ι : Type} (o : GradientDescentOptimizer)
    (grad x : Vec ι) : Vec ι :=
  fun i => x i - o.stepsize * grad i

/-- Source `GradientDescentOptimizer.compute_grad`: call `grad_fn` at `x` if supplied,
else `autograd.grad(objective_fn)` at `x`; both branches evaluate the gradient
oracle at `x`. -/
def GradientDescentOptimizer.compute_grad {ι : Type} (_o : GradientDescentOptimizer)
    (gradFn : Vec ι → Vec ι) (x : Vec ι) : Vec ι :=
  gradFn x

/-- Source `GradientDescentOptimizer.step`: compute the gradient, then apply it.
(The shape-dependent reshape branch is modelled on `NDArray` below; here the
oracle already returns an array indexed like `x`.) -/
def GradientDescentOptimizer.step {ι : Type} (o : GradientDescentOptimizer)
    (gradFn : Vec ι → Vec ι) (x : Vec ι) : Vec ι :=
  o.apply_grad (o.compute_grad gradFn x) x

/-- Source `MomentumOptimizer.__init__`: stepsize, momentum, `accumulation = None`. -/
structure MomentumOptimizer (ι : Type) where
  stepsize : ℝ
  momentum : ℝ
  accumulation : Option (Vec ι)

/-- Source `MomentumOptimizer.apply_grad`: first call sets
`accumulation = stepsize * grad`, later calls set
`accumulation = momentum * accumulation + stepsize * grad`;
returns `x - accumulation` together with the mutated optimizer state. -/
def MomentumOptimizer.apply_grad {ι : Type} (o : MomentumOptimizer ι)
    (grad x : Vec ι) : MomentumOptimizer ι × Vec ι :=
  let acc : Vec ι :=
    match o.accumulation with
    | none => fun i => o.stepsize * grad i
    | some a => fun i => o.momentum * a i + o.stepsize * grad i
  ({ o with accumulation := some acc }, fun i => x i - acc i)

/-- Source `MomentumOptimizer` inherits `step` from the base class: gradient first
(computed at `x`), then `apply_grad`. -/
def MomentumOptimizer.step {ι : Type} (o : MomentumOptimizer ι)
    (gradFn : Vec ι → Vec ι) (x : Vec ι) : MomentumOptimizer ι × Vec ι :=
  o.apply_grad (gradFn x) x

/-- Source `MomentumOptimizer.reset`: `self.accumulation = None`. -/
def MomentumOptimizer.reset {ι : Type} (o : MomentumOptimizer ι) : MomentumOptimizer ι :=
  { o with accumulation := none }

/-- Source `NesterovMomentumOptimizer.__init__`: same fields as `MomentumOptimizer`. -/
structure NesterovMomentumOptimizer (ι : Type) where
  stepsize : ℝ
  momentum : ℝ
  accumulation : Option (Vec ι)

/-- The shifted evaluation point of `NesterovMomentumOptimizer.compute_grad`:
`x` itself while `accumulation is None`, else `x - momentum * accumulation`. -/
def NesterovMomentumOptimizer.shifted_x {ι : Type} (o : NesterovMomentumOptimizer ι)
    (x : Vec ι) : Vec ι :=
  match o.accumulation with
  | none => x
  | some a => fun i => x i - o.momentum * a i

/-- Source `NesterovMomentumOptimizer.compute_grad`: evaluate the gradient oracle
(`grad_fn` or `autograd.grad(objective_fn)`, both branches alike) at the
shifted point. -/
def NesterovMomentumOptimizer.compute_grad {ι : Type} (o : NesterovMomentumOptimizer ι)
    (gradFn : Vec ι → Vec ι) (x : Vec ι) : Vec ι :=
  gradFn (o.shifted_x x)

/-- The update rule `NesterovMomentumOptimizer` inherits unchanged from
`MomentumOptimizer.apply_grad`. -/
def NesterovMomentumOptimizer.apply_grad {ι : Type} (o : NesterovMomentumOptimizer ι)
    (grad x : Vec ι) : NesterovMomentumOptimizer ι × Vec ι :=
  let acc : Vec ι :=
    match o.accumulation with
    | none => fun i => o.stepsize * grad i
    | some a => fun i => o.momentum * a i + o.stepsize * grad i
  ({ o with accumulation := some acc }, fun i => x i - acc i)

/-- Source `NesterovMomentumOptimizer`'s inherited `step`: the overridden
`compute_grad` (at the shifted point) feeds the inherited update rule. -/
def NesterovMomentumOptimizer.step {ι : Type} (o : NesterovMomentumOptimizer ι)
    (gradFn : Vec ι → Vec ι) (x : Vec ι) : NesterovMomentumOptimizer ι × Vec ι :=
  o.apply_grad (o.compute_grad gradFn x) x

/-- Source `NesterovMomentumOptimizer` inherits `reset` from `MomentumOptimizer`. -/
def NesterovMomentumOptimizer.reset {ι : Type} (o : NesterovMomentumOptimizer ι) :
    NesterovMomentumOptimizer ι :=
  { o with accumulation := none }

/-- The fields a `NesterovMomentumOptimizer` shares with its parent class. -/
def NesterovMomentumOptimizer.toMomentum {ι : Type} (o : NesterovMomentumOptimizer ι) :
    MomentumOptimizer ι :=
  ⟨o.stepsize, o.momentum, o.accumulation⟩

/-- Source `AdagradOptimizer.__init__`: stepsize, `accumulation = None`. -/
structure AdagradOptimizer (ι : Type) where
  stepsize : ℝ
  accumulation : Option (Vec ι)

/-- Source `AdagradOptimizer.apply_grad`: first call sets `accumulation = grad * grad`,
later calls do `accumulation += grad * grad`; returns
`x - (stepsize / sqrt(accumulation + 1e-8)) * grad` elementwise, with the
freshly updated accumulation in the denominator. -/
def AdagradOptimizer.apply_grad {ι : Type} (o : AdagradOptimizer ι)
    (grad x : Vec ι) : AdagradOptimizer ι × Vec ι :=
  let acc : Vec ι :=
    match o.accumulation with
    | none => fun i => grad i * grad i
    | some a => fun i => a i + grad i * grad i
  ({ o with accumulation := some acc },
    fun i => x i - (o.stepsize / Real.sqrt (acc i + 1e-8)) * grad i)

/-- Source `AdagradOptimizer` inherits `step` from the base class. -/
def AdagradOptimizer.step {ι : Type} (o : AdagradOptimizer ι)
    (gradFn : Vec ι → Vec ι) (x : Vec ι) : AdagradOptimizer ι × Vec ι :=
  o.apply_grad (gradFn x) x

/-- Source `AdagradOptimizer.reset`: `self.accumulation = None`. -/
def AdagradOptimizer.reset {ι : Type} (o : AdagradOptimizer ι) : AdagradOptimizer ι :=
  { o with accumulation := none }

/-- Source `RMSPropOptimizer.__init__`: stepsize, decay, `accumulation = None`
(inherited from `AdagradOptimizer.__init__`). -/
structure RMSPropOptimizer (ι : Type) where
  stepsize : ℝ
  decay : ℝ
  accumulation : Option (Vec ι)

/-- Source `RMSPropOptimizer.apply_grad`: first call sets
`accumulation = (1 - decay) * (grad * grad)`, later calls set
`accumulation = decay * accumulation + (1 - decay) * (grad * grad)`;
the return expression is the same as Adagrad's. -/
def RMSPropOptimizer.apply_grad {ι : Type} (o : RMSPropOptimizer ι)
    (grad x : Vec ι) : RMSPropOptimizer ι × Vec ι :=
  let acc : Vec ι :=
    match o.accumulation with
    | none => fun i => (1 - o.decay) * (grad i * grad i)
    | some a => fun i => o.decay * a i + (1 - o.decay) * (grad i * grad i)
  ({ o with accumulation := some acc },
    fun i => x i - (o.stepsize / Real.sqrt (acc i + 1e-8)) * grad i)

/-- Source `RMSPropOptimizer` inherits `step` from the base class. -/
def RMSPropOptimizer.step {ι : Type} (o : RMSPropOptimizer ι)
    (gradFn : Vec ι → Vec ι) (x : Vec ι) : RMSPropOptimizer ι × Vec ι :=
  o.apply_grad (gradFn x) x

/-- Source `RMSPropOptimizer` inherits `reset` from `AdagradOptimizer`. -/
def RMSPropOptimizer.reset {ι : Type} (o : RMSPropOptimizer ι) : RMSPropOptimizer ι :=
  { o with accumulation := none }

/-- Source `AdamOptimizer.__init__`: stepsize, beta1, beta2, both moments `None`,
`t = 0`. -/
structure AdamOptimizer (ι : Type) where
  stepsize : ℝ
  beta1 : ℝ
  beta2 : ℝ
  firstmoment : Option (Vec ι)
  secondmoment : Option (Vec ι)
  t : ℕ

/-- Adam's bias-correcting effective step size at counter value `t`:
`stepsize * sqrt(1 - beta2 ** t) / (1 - beta1 ** t)`. -/
def AdamOptimizer.adapted_stepsize {ι : Type} (o : AdamOptimizer ι) (t : ℕ) : ℝ :=
  o.stepsize * Real.sqrt (1 - o.beta2 ^ t) / (1 - o.beta1 ^ t)

/-- Source `AdamOptimizer.apply_grad`: increments `t`, updates both moments
(`firstmoment = grad` resp. `secondmoment = grad * grad` when unset, else the
exponential recurrences), and returns
`x - adapted_stepsize * firstmoment / (sqrt(secondmoment) + 1e-8)`. -/
def AdamOptimizer.apply_grad {ι : Type} (o : AdamOptimizer ι)
    (grad x : Vec ι) : AdamOptimizer ι × Vec ι :=
  let t := o.t + 1
  let fm : Vec ι :=
    match o.firstmoment with
    | none => grad
    | some m => fun i => o.beta1 * m i + (1 - o.beta1) * grad i
  let sm : Vec ι :=
    match o.secondmoment with
    | none => fun i => grad i * grad i
    | some m => fun i => o.beta2 * m i + (1 - o.beta2) * (grad i * grad i)
  ({ o with firstmoment := some fm, secondmoment := some sm, t := t },
    fun i => x i - o.adapted_stepsize t * fm i / (Real.sqrt (sm i) + 1e-8))

/-- Source `AdamOptimizer` inherits `step` from the base class. -/
def AdamOptimizer.step {ι : Type} (o : AdamOptimizer ι)
    (gradFn : Vec ι → Vec ι) (x : Vec ι) : AdamOptimizer ι × Vec ι :=
  o.apply_grad (gradFn x) x

/-- Source `AdamOptimizer.reset`: both moments back to `None`, `t = 0`. -/
def AdamOptimizer.reset {ι : Type} (o : AdamOptimizer ι) : AdamOptimizer ι :=
  { o with firstmoment := none, secondmoment := none, t := 0 }

/-- C1 (amended): a `step` with an everywhere-zero gradient and no prior
accumulated history leaves `x` unchanged for ALL six variants.  For
Adagrad/RMSProp the denominator is `sqrt(0 + 1e-8)` and for Adam it is
`sqrt(0) + 1e-8` — defined and nonzero, with the exact `1e-8` floor — but the
update multiplies it into the zero gradient (resp. zero first moment), so the
step is exactly zero. -/
theorem zero_gradient_step_fixes_x_all_variants {ι : Type} (s m d b1 b2 : ℝ) (x : Vec ι) :
    (GradientDescentOptimizer.step ⟨s⟩ (fun _ => fun _ => 0) x = x)
    ∧ ((MomentumOptimizer.step ⟨s, m, none⟩ (fun _ => fun _ => 0) x).2 = x)
    ∧ ((NesterovMomentumOptimizer.step ⟨s, m, none⟩ (fun _ => fun _ => 0) x).2 = x)
    ∧ ((AdagradOptimizer.step ⟨s, none⟩ (fun _ => fun _ => 0) x).2 = x)
    ∧ ((RMSPropOptimizer.step ⟨s, d, none⟩ (fun _ => fun _ => 0) x).2 = x)
    ∧ ((AdamOptimizer.step ⟨s, b1, b2, none, none, 0⟩ (fun _ => fun _ => 0) x).2 = x)
    ∧ (0 < Real.sqrt ((0:ℝ) * 0 + 1e-8))
    ∧ (0 < Real.sqrt ((0:ℝ) * 0) + 1e-8) := by
  refine ⟨?_, ?_, ?_, ?_, ?_, ?_, ?_, ?_⟩
  · funext i
    simp [GradientDescentOptimizer.step, GradientDescentOptimizer.apply_grad,
      GradientDescentOptimizer.compute_grad]
  · funext i
    simp [MomentumOptimizer.step, MomentumOptimizer.apply_grad]
  · funext i
    simp [NesterovMomentumOptimizer.step, NesterovMomentumOptimizer.apply_grad,
      NesterovMomentumOptimizer.compute_grad, NesterovMomentumOptimizer.shifted_x]
  · funext i
    simp [AdagradOptimizer.step, AdagradOptimizer.apply_grad]
  · funext i
    simp [RMSPropOptimizer.step, RMSPropOptimizer.apply_grad]
  · funext i
    simp [AdamOptimizer.step, AdamOptimizer.apply_grad, AdamOptimizer.adapted_stepsize]
  · exact Real.sqrt_pos.mpr (by norm_num)
  · rw [mul_zero, Real.sqrt_zero]
    norm_num

/-- C1 (counterexample to the claim as stated): for the Adagrad variant with
`stepsize = 0.1`, starting at `x = 1` with no history, a step on the
everywhere-zero gradient returns `x` exactly — contradicting the claim that
Adagrad takes a "defined but nonzero tiny-denominator step" on a zero
gradient. -/
theorem zero_gradient_adagrad_step_unchanged_cex :
    (AdagradOptimizer.step (⟨1 / 10, none⟩ : AdagradOptimizer (Fin 1))
      (fun _ => fun _ => 0) (fun _ => 1)).2 = (fun _ => 1) := by
  funext i
  simp [AdagradOptimizer.step, AdagradOptimizer.apply_grad]

/-- C2: on every stateful variant, `reset()` followed by `step` gives the same
result as `step` on a freshly-constructed optimizer with the same
hyperparameters; `reset` clears the accumulated state (Adam's `t` back to `0`)
and does not alter `stepsize`, `momentum`, `decay`, `beta1` or `beta2`. -/
theorem reset_then_step_eq_fresh_step {ι : Type} (gradFn : Vec ι → Vec ι) (x : Vec ι) :
    (∀ o : MomentumOptimizer ι,
      o.reset.step gradFn x = (MomentumOptimizer.step ⟨o.stepsize, o.momentum, none⟩ gradFn x)
        ∧ o.reset.stepsize = o.stepsize ∧ o.reset.momentum = o.momentum
        ∧ o.reset.accumulation = none)
    ∧ (∀ o : NesterovMomentumOptimizer ι,
      o.reset.step gradFn x
          = (NesterovMomentumOptimizer.step ⟨o.stepsize, o.momentum, none⟩ gradFn x)
        ∧ o.reset.stepsize = o.stepsize ∧ o.reset.momentum = o.momentum
        ∧ o.reset.accumulation = none)
    ∧ (∀ o : AdagradOptimizer ι,
      o.reset.step gradFn x = (AdagradOptimizer.step ⟨o.stepsize, none⟩ gradFn x)
        ∧ o.reset.stepsize = o.stepsize ∧ o.reset.accumulation = none)
    ∧ (∀ o : RMSPropOptimizer ι,
      o.reset.step gradFn x = (RMSPropOptimizer.step ⟨o.stepsize, o.decay, none⟩ gradFn x)
        ∧ o.reset.stepsize = o.stepsize ∧ o.reset.decay = o.decay
        ∧ o.reset.accumulation = none)
    ∧ (∀ o : AdamOptimizer ι,
      o.reset.step gradFn x
          = (AdamOptimizer.step ⟨o.stepsize, o.beta1, o.beta2, none, none, 0⟩ gradFn x)
        ∧ o.reset.stepsize = o.stepsize ∧ o.reset.beta1 = o.beta1
        ∧ o.reset.beta2 = o.beta2 ∧ o.reset.firstmoment = none
        ∧ o.reset.secondmoment = none ∧ o.reset.t = 0) :=
  ⟨fun _ => ⟨rfl, rfl, rfl, rfl⟩,
   fun _ => ⟨rfl, rfl, rfl, rfl⟩,
   fun _ => ⟨rfl, rfl, rfl⟩,
   fun _ => ⟨rfl, rfl, rfl, rfl⟩,
   fun _ => ⟨rfl, rfl, rfl, rfl, rfl, rfl, rfl⟩⟩

/-- C3: every Adam `step` increments `t` by exactly 1 (so the first call from a
fresh optimizer makes `t = 1`); the effective step size at counter `t` is
`stepsize * sqrt(1 - beta2^t) / (1 - beta1^t)` — at `t = 1` that is
`stepsize * sqrt(1 - beta2) / (1 - beta1)` — and the returned point is
`x - adapted_stepsize * firstmoment / (sqrt(secondmoment) + 1e-8)` elementwise,
with the moments following the stated recurrences (`g` resp. `g ⊙ g` when
unset, else the `beta`-weighted averages). -/
theorem adam_step_count_and_update {ι : Type} (s b1 b2 : ℝ) (t0 : ℕ)
    (gradFn : Vec ι → Vec ι) (g x fm sm : Vec ι) :
    (∀ o : AdamOptimizer ι, (o.step gradFn x).1.t = o.t + 1)
    ∧ ((AdamOptimizer.step ⟨s, b1, b2, none, none, 0⟩ gradFn x).1.t = 1)
    ∧ (∀ o : AdamOptimizer ι,
        o.adapted_stepsize 1 = o.stepsize * Real.sqrt (1 - o.beta2) / (1 - o.beta1))
    ∧ (AdamOptimizer.apply_grad ⟨s, b1, b2, none, none, t0⟩ g x
        = (⟨s, b1, b2, some g, some (fun i => g i * g i), t0 + 1⟩,
           fun i => x i - (s * Real.sqrt (1 - b2 ^ (t0 + 1)) / (1 - b1 ^ (t0 + 1))) * g i /
              (Real.sqrt (g i * g i) + 1e-8)))
    ∧ (AdamOptimizer.apply_grad ⟨s, b1, b2, some fm, some sm, t0⟩ g x
        = (⟨s, b1, b2, some (fun i => b1 * fm i + (1 - b1) * g i),
             some (fun i => b2 * sm i + (1 - b2) * (g i * g i)), t0 + 1⟩,
           fun i => x i - (s * Real.sqrt (1 - b2 ^ (t0 + 1)) / (1 - b1 ^ (t0 + 1))) *
              (b1 * fm i + (1 - b1) * g i) /
              (Real.sqrt (b2 * sm i + (1 - b2) * (g i * g i)) + 1e-8))) := by
  refine ⟨fun o => rfl, rfl, fun o => ?_, rfl, rfl⟩
  simp [AdamOptimizer.adapted_stepsize, pow_one]

/-- C4: the Nesterov variant evaluates the gradient oracle (the supplied
`grad_fn` and the autodiff engine are called at the same point) at `x` itself
on the first call (`accumulation` unset) and at `x - momentum * accumulation`
once `accumulation` is set; its update rule is the one inherited unchanged
from the Momentum variant. -/
theorem nesterov_eval_point_and_momentum_update {ι : Type} (s m : ℝ)
    (gradFn : Vec ι → Vec ι) (a g x : Vec ι) :
    (NesterovMomentumOptimizer.compute_grad ⟨s, m, none⟩ gradFn x = gradFn x)
    ∧ (NesterovMomentumOptimizer.shifted_x ⟨s, m, none⟩ x = x)
    ∧ (NesterovMomentumOptimizer.compute_grad ⟨s, m, some a⟩ gradFn x
        = gradFn (fun i => x i - m * a i))
    ∧ (NesterovMomentumOptimizer.shifted_x ⟨s, m, some a⟩ x = fun i => x i - m * a i)
    ∧ (∀ o : NesterovMomentumOptimizer ι,
        (o.apply_grad g x).2 = (o.toMomentum.apply_grad g x).2
        ∧ (o.apply_grad g x).1.toMomentum = (o.toMomentum.apply_grad g x).1) :=
  ⟨rfl, rfl, rfl, rfl, fun _ => ⟨rfl, rfl⟩⟩

/-- C5: the Momentum variant's first call with gradient `g` sets
`accumulation = stepsize * g` and returns `x - stepsize * g` — exactly the
base variant's plain gradient-descent step — and each later call sets
`accumulation = momentum * accumulation + stepsize * g` and returns
`x - accumulation`. -/
theorem momentum_update_rule {ι : Type} (s m : ℝ) (g x : Vec ι) :
    (MomentumOptimizer.apply_grad ⟨s, m, none⟩ g x
      = (⟨s, m, some (fun i => s * g i)⟩, fun i => x i - s * g i))
    ∧ ((MomentumOptimizer.apply_grad ⟨s, m, none⟩ g x).2
        = GradientDescentOptimizer.apply_grad ⟨s⟩ g x)
    ∧ (∀ a : Vec ι,
        MomentumOptimizer.apply_grad ⟨s, m, some a⟩ g x
          = (⟨s, m, some (fun i => m * a i + s * g i)⟩,
             fun i => x i - (m * a i + s * g i))) :=
  ⟨rfl, rfl, fun _ => rfl⟩

/-- Iterate `AdagradOptimizer.apply_grad` over a list of calls, each supplying
the gradient and the point of that call; returns the final optimizer state. -/
def AdagradOptimizer.runCalls {ι : Type} :
    AdagradOptimizer ι → List (Vec ι × Vec ι) → AdagradOptimizer ι
  | o, [] => o
  | o, c :: cs => ((o.apply_grad c.1 c.2).1).runCalls cs

/-- Starting from an initialized accumulation `a`, iterating Adagrad calls adds
the elementwise squares of all gradients seen. -/
theorem AdagradOptimizer.runCalls_accumulation {ι : Type} (s : ℝ) (a : Vec ι)
    (cs : List (Vec ι × Vec ι)) :
    ((⟨s, some a⟩ : AdagradOptimizer ι).runCalls cs).accumulation
      = some (fun i => a i + (cs.map (fun p => p.1 i * p.1 i)).sum) := by
  induction cs generalizing a with
  | nil =>
    show some a = some fun i => a i + _
    congr 1
    funext i
    simp
  | cons c cs ih =>
    show ((⟨s, some fun i => a i + c.1 i * c.1 i⟩ : AdagradOptimizer ι).runCalls cs).accumulation
      = _
    rw [ih]
    congr 1
    funext i
    simp [add_assoc]

/-- C6: from a fresh Adagrad optimizer, the accumulation after `n ≥ 1` calls is
the elementwise sum of the squares of all `n` gradients seen (`g ⊙ g` on the
first call, `+= g ⊙ g` thereafter), and every call returns
`x - (stepsize / sqrt(accumulation + 1e-8)) ⊙ g` with the updated
accumulation; concretely, minimizing `f(x) = x²` (gradient oracle `2x`) from
`x = 1` with `stepsize = 0.1`, one step yields `accumulation = 4` and a new
point within `10⁻⁴` of `0.9`. -/
theorem adagrad_accumulates_squared_gradients {ι : Type} (s : ℝ) (g x : Vec ι)
    (c : Vec ι × Vec ι) (cs : List (Vec ι × Vec ι)) :
    (((⟨s, none⟩ : AdagradOptimizer ι).runCalls (c :: cs)).accumulation
      = some (fun i => ((c :: cs).map (fun p => p.1 i * p.1 i)).sum))
    ∧ ((AdagradOptimizer.apply_grad ⟨s, none⟩ g x).2
        = fun i => x i - (s / Real.sqrt (g i * g i + 1e-8)) * g i)
    ∧ (∀ a : Vec ι, (AdagradOptimizer.apply_grad ⟨s, some a⟩ g x).2
        = fun i => x i - (s / Real.sqrt (a i + g i * g i + 1e-8)) * g i)
    ∧ ((AdagradOptimizer.step (⟨1 / 10, none⟩ : AdagradOptimizer (Fin 1))
        (fun y => fun i => 2 * y i) (fun _ => 1)).1.accumulation = some (fun _ => 4))
    ∧ (|(AdagradOptimizer.step (⟨1 / 10, none⟩ : AdagradOptimizer (Fin 1))
        (fun y => fun i => 2 * y i) (fun _ => 1)).2 0 - 9 / 10| < 1 / 10 ^ 4) := by
  refine ⟨?_, rfl, fun a => rfl, ?_, ?_⟩
  · show ((⟨s, some fun i => c.1 i * c.1 i⟩ : AdagradOptimizer ι).runCalls cs).accumulation = _
    rw [AdagradOptimizer.runCalls_accumulation]
    simp [List.sum_cons]
  · show some (fun _ => (2:ℝ) * 1 * (2 * 1)) = some fun _ => (4:ℝ)
    congr 1
    funext i
    norm_num
  · show |1 - (1 / 10 / Real.sqrt ((2:ℝ) * 1 * (2 * 1) + 1e-8)) * ((2:ℝ) * 1) - 9 / 10|
      < 1 / 10 ^ 4
    rw [show ((2:ℝ) * 1 * (2 * 1) + 1e-8) = 4 + 1e-8 by norm_num]
    have hq1 : 2 < Real.sqrt (4 + 1e-8) := (Real.lt_sqrt (by norm_num)).mpr (by norm_num)
    have hq2 : Real.sqrt (4 + 1e-8) < 2.00000001 :=
      (Real.sqrt_lt' (by norm_num)).mpr (by norm_num)
    have hqpos : (0:ℝ) < Real.sqrt (4 + 1e-8) := lt_trans zero_lt_two hq1
    have hrw : (1:ℝ) / 10 / Real.sqrt (4 + 1e-8) * (2 * 1)
        = (1 / 5) / Real.sqrt (4 + 1e-8) := by ring
    rw [hrw, abs_lt]
    constructor
    · have hub : (1:ℝ) / 5 / Real.sqrt (4 + 1e-8) < 1 / 10 := by
        rw [div_lt_iff₀ hqpos]
        nlinarith
      linarith
    · have hlb : (1:ℝ) / 5 / 2.00000001 < 1 / 5 / Real.sqrt (4 + 1e-8) :=
        (div_lt_div_iff_of_pos_left (by norm_num) (by norm_num) hqpos).mpr hq2
      have hnum : (1:ℝ) / 10 - 1 / 10 ^ 4 < 1 / 5 / 2.00000001 := by norm_num
      linarith

/-- C7: the RMSProp variant's first call sets
`accumulation = (1 - decay) * (g ⊙ g)`, each later call sets
`accumulation = decay * accumulation + (1 - decay) * (g ⊙ g)`, and the
returned point uses the same expression as Adagrad:
`x - (stepsize / sqrt(accumulation + 1e-8)) ⊙ g` with the updated
accumulation. -/
theorem rmsprop_update_rule {ι : Type} (s d : ℝ) (g x a : Vec ι) :
    (RMSPropOptimizer.apply_grad ⟨s, d, none⟩ g x
      = (⟨s, d, some (fun i => (1 - d) * (g i * g i))⟩,
         fun i => x i - (s / Real.sqrt ((1 - d) * (g i * g i) + 1e-8)) * g i))
    ∧ (RMSPropOptimizer.apply_grad ⟨s, d, some a⟩ g x
      = (⟨s, d, some (fun i => d * a i + (1 - d) * (g i * g i))⟩,
         fun i => x i - (s / Real.sqrt (d * a i + (1 - d) * (g i * g i) + 1e-8)) * g i)) :=
  ⟨rfl, rfl⟩

/-- A shape-carrying array: the shape tuple reported by numpy together with
the flat sequence of entries.  Only what `GradientDescentOptimizer.step`'s
reshape branch inspects is modelled. -/
structure NDArray where
  shape : List ℕ
  data : List ℝ

/-- Source `g.reshape(x_shape)`: same entries under the new shape. -/
def NDArray.reshape (a : NDArray) (s : List ℕ) : NDArray :=
  ⟨s, a.data⟩

/-- The gradient actually used by `step`: the body of
`if len(x_shape) > 1: g = g.reshape(x_shape)`. -/
def stepGradient (xshape : List ℕ) (g : NDArray) : NDArray :=
  if xshape.length > 1 then g.reshape xshape else g

/-- The base-class `step` body shared (inherited unchanged) by every variant:
record `x_shape`, compute the gradient, conditionally reshape it, then hand it
to the (dynamically dispatched) `apply_grad`. -/
def genericStep {α : Type} (computeGrad : NDArray → NDArray)
    (applyGrad : NDArray → NDArray → α) (x : NDArray) : α :=
  applyGrad (stepGradient x.shape (computeGrad x)) x

/-- Source `GradientDescentOptimizer.apply_grad` on shape-carrying arrays:
`x - stepsize * grad`, elementwise over the flat data, an array of `x`'s
shape; the base variant is stateless, so only the array is returned. -/
def GradientDescentOptimizer.applyGradArr (o : GradientDescentOptimizer)
    (grad x : NDArray) : NDArray :=
  ⟨x.shape, List.zipWith (fun a b => a - o.stepsize * b) x.data grad.data⟩

/-- C8: in the shared `step` body every variant inherits, the computed gradient
is reshaped back to `x`'s shape exactly when `len(x.shape) > 1` (keeping its
entries), and is used in the engine's native shape for 0-D or 1-D `x`; the
base variant then returns exactly `x - stepsize * g` with no optimizer state
touched. -/
theorem step_reshapes_iff_multidim (o : GradientDescentOptimizer)
    (cg : NDArray → NDArray) (x gnd : NDArray) (xshape : List ℕ) :
    (∀ (α : Type) (ag : NDArray → NDArray → α),
        genericStep cg ag x = ag (stepGradient x.shape (cg x)) x)
    ∧ (xshape.length > 1 → stepGradient xshape gnd = ⟨xshape, gnd.data⟩)
    ∧ (¬ xshape.length > 1 → stepGradient xshape gnd = gnd)
    ∧ (genericStep cg o.applyGradArr x
        = ⟨x.shape, List.zipWith (fun a b => a - o.stepsize * b) x.data
            (stepGradient x.shape (cg x)).data⟩) := by
  refine ⟨fun α ag => rfl, fun h => ?_, fun h => ?_, rfl⟩
  · simp [stepGradient, NDArray.reshape, if_pos h]
  · simp [stepGradient, if_neg h]

/-- C8 witness: a 2×2-shaped `x` has its gradient reshaped (entries kept), a
1-D `x` keeps the engine's native gradient. -/
theorem step_reshapes_iff_multidim_witness :
    (([2, 2] : List ℕ).length > 1
      ∧ stepGradient [2, 2] ⟨[4], [1, 2, 3, 4]⟩ = ⟨[2, 2], [1, 2, 3, 4]⟩)
    ∧ (¬ ([2] : List ℕ).length > 1
      ∧ stepGradient [2] ⟨[2], [5, 6]⟩ = ⟨[2], [5, 6]⟩) :=
  ⟨⟨by decide,
    (step_reshapes_iff_multidim ⟨1⟩ id ⟨[2, 2], [1, 2, 3, 4]⟩
      ⟨[4], [1, 2, 3, 4]⟩ [2, 2]).2.1 (by decide)⟩,
   ⟨by decide,
    (step_reshapes_iff_multidim ⟨1⟩ id ⟨[2], [5, 6]⟩
      ⟨[2], [5, 6]⟩ [2]).2.2.1 (by decide)⟩⟩

/-- Fallible gradient oracle: the base `step` when the engine or `grad_fn` can
raise; the gradient is computed first, and only on success is `apply_grad`
reached. -/
def GradientDescentOptimizer.stepE {ι : Type} (o : GradientDescentOptimizer)
    (gradFn : Vec ι → Option (Vec ι)) (x : Vec ι) : Option (Vec ι) :=
  (gradFn x).map fun g => o.apply_grad g x

/-- Fallible `step` for the Momentum variant: state is only produced (on the
right of the `map`) after the gradient computation succeeds. -/
def MomentumOptimizer.stepE {ι : Type} (o : MomentumOptimizer ι)
    (gradFn : Vec ι → Option (Vec ι)) (x : Vec ι) :
    Option (MomentumOptimizer ι × Vec ι) :=
  (gradFn x).map fun g => o.apply_grad g x

/-- Fallible `step` for the Nesterov variant: the oracle is consulted at the
shifted point. -/
def NesterovMomentumOptimizer.stepE {ι : Type} (o : NesterovMomentumOptimizer ι)
    (gradFn : Vec ι → Option (Vec ι)) (x : Vec ι) :
    Option (NesterovMomentumOptimizer ι × Vec ι) :=
  (gradFn (o.shifted_x x)).map fun g => o.apply_grad g x

/-- Fallible `step` for the Adagrad variant. -/
def AdagradOptimizer.stepE {ι : Type} (o : AdagradOptimizer ι)
    (gradFn : Vec ι → Option (Vec ι)) (x : Vec ι) :
    Option (AdagradOptimizer ι × Vec ι) :=
  (gradFn x).map fun g => o.apply_grad g x

/-- Fallible `step` for the RMSProp variant. -/
def RMSPropOptimizer.stepE {ι : Type} (o : RMSPropOptimizer ι)
    (gradFn : Vec ι → Option (Vec ι)) (x : Vec ι) :
    Option (RMSPropOptimizer ι × Vec ι) :=
  (gradFn x).map fun g => o.apply_grad g x

/-- Fallible `step` for the Adam variant. -/
def AdamOptimizer.stepE {ι : Type} (o : AdamOptimizer ι)
    (gradFn : Vec ι → Option (Vec ι)) (x : Vec ι) :
    Option (AdamOptimizer ι × Vec ι) :=
  (gradFn x).map fun g => o.apply_grad g x

/-- C9: in every variant, a failing gradient computation aborts the `step`
with no successor state produced — the caller keeps the optimizer state
exactly as it was before the call, because gradient computation precedes
every state update. -/
theorem failed_gradient_aborts_step {ι : Type} (gradFn : Vec ι → Option (Vec ι))
    (x : Vec ι) :
    (∀ o : GradientDescentOptimizer, gradFn x = none → o.stepE gradFn x = none)
    ∧ (∀ o : MomentumOptimizer ι, gradFn x = none → o.stepE gradFn x = none)
    ∧ (∀ o : NesterovMomentumOptimizer ι, gradFn (o.shifted_x x) = none →
        o.stepE gradFn x = none)
    ∧ (∀ o : AdagradOptimizer ι, gradFn x = none → o.stepE gradFn x = none)
    ∧ (∀ o : RMSPropOptimizer ι, gradFn x = none → o.stepE gradFn x = none)
    ∧ (∀ o : AdamOptimizer ι, gradFn x = none → o.stepE gradFn x = none) := by
  refine ⟨fun o h => ?_, fun o h => ?_, fun o h => ?_, fun o h => ?_,
    fun o h => ?_, fun o h => ?_⟩
  · simp [GradientDescentOptimizer.stepE, h]
  · simp [MomentumOptimizer.stepE, h]
  · simp [NesterovMomentumOptimizer.stepE, h]
  · simp [AdagradOptimizer.stepE, h]
  · simp [RMSPropOptimizer.stepE, h]
  · simp [AdamOptimizer.stepE, h]

/-- C9 witness: with an always-failing oracle, every variant's fallible `step`
returns `none`. -/
theorem failed_gradient_aborts_step_witness :
    ((fun _ : Vec (Fin 1) => (none : Option (Vec (Fin 1)))) (fun _ => 0) = none)
    ∧ GradientDescentOptimizer.stepE (ι := Fin 1) ⟨1 / 100⟩ (fun _ => none)
        (fun _ => 0) = none
    ∧ MomentumOptimizer.stepE (⟨1 / 100, 9 / 10, none⟩ : MomentumOptimizer (Fin 1))
        (fun _ => none) (fun _ => 0) = none
    ∧ NesterovMomentumOptimizer.stepE
        (⟨1 / 100, 9 / 10, none⟩ : NesterovMomentumOptimizer (Fin 1))
        (fun _ => none) (fun _ => 0) = none
    ∧ AdagradOptimizer.stepE (⟨1 / 100, none⟩ : AdagradOptimizer (Fin 1))
        (fun _ => none) (fun _ => 0) = none
    ∧ RMSPropOptimizer.stepE (⟨1 / 100, 9 / 10, none⟩ : RMSPropOptimizer (Fin 1))
        (fun _ => none) (fun _ => 0) = none
    ∧ AdamOptimizer.stepE
        (⟨1 / 100, 9 / 10, 99 / 100, none, none, 0⟩ : AdamOptimizer (Fin 1))
        (fun _ => none) (fun _ => 0) = none :=
  ⟨rfl,
   (failed_gradient_aborts_step (fun _ => none) (fun _ => 0)).1 ⟨1 / 100⟩ rfl,
   (failed_gradient_aborts_step (fun _ => none) (fun _ => 0)).2.1
     ⟨1 / 100, 9 / 10, none⟩ rfl,
   (failed_gradient_aborts_step (fun _ => none) (fun _ => 0)).2.2.1
     ⟨1 / 100, 9 / 10, none⟩ rfl,
   (failed_gradient_aborts_step (fun _ => none) (fun _ => 0)).2.2.2.1
     ⟨1 / 100, none⟩ rfl,
   (failed_gradient_aborts_step (fun _ => none) (fun _ => 0)).2.2.2.2.1
     ⟨1 / 100, 9 / 10, none⟩ rfl,
   (failed_gradient_aborts_step (fun _ => none) (fun _ => 0)).2.2.2.2.2
     ⟨1 / 100, 9 / 10, 99 / 100, none, none, 0⟩ rfl⟩

/-!
Mutation model for the frame claim: numpy arrays live in an explicit store of
flat arrays addressed by references.  Every numpy expression of the source
(`x - stepsize * grad`, `grad * grad`, …) allocates a fresh array; the single
in-place operation of the source, Adagrad's `self.accumulation += grad *
grad`, writes through the accumulation reference.  `grad_fn`/`autograd.grad`
is a black box from the value of `x` to a freshly allocated gradient array.
-/

/-- A store of numpy arrays; a reference is an index into the list. -/
structure Store where
  arrs : List (List ℝ)

/-- Dereference (out-of-range reads never occur in the modelled code). -/
def Store.read (s : Store) (r : ℕ) : List ℝ :=
  s.arrs.getD r []

/-- Allocate a fresh array holding `v`; returns the store and the new
reference. -/
def Store.alloc (s : Store) (v : List ℝ) : Store × ℕ :=
  (⟨s.arrs ++ [v]⟩, s.arrs.length)

/-- Overwrite the array behind `r` in place (numpy's `+=`). -/
def Store.write (s : Store) (r : ℕ) (v : List ℝ) : Store :=
  ⟨s.arrs.set r v⟩

theorem Store.read_alloc_of_lt (s : Store) (v : List ℝ) (r : ℕ)
    (h : r < s.arrs.length) : (s.alloc v).1.read r = s.read r := by
  simp only [Store.read, Store.alloc]
  exact List.getD_append _ _ _ _ h

theorem Store.length_alloc (s : Store) (v : List ℝ) :
    (s.alloc v).1.arrs.length = s.arrs.length + 1 := by
  simp [Store.alloc]

theorem Store.read_write_of_ne (s : Store) (r' : ℕ) (v : List ℝ) (r : ℕ)
    (h : r' ≠ r) : (s.write r' v).read r = s.read r := by
  simp [Store.read, Store.write, List.getD_eq_getElem?_getD,
    List.getElem?_set_ne h]

theorem Store.length_write (s : Store) (r : ℕ) (v : List ℝ) :
    (s.write r v).arrs.length = s.arrs.length := by
  simp [Store.write]

/-- Source `GradientDescentOptimizer.step` in the store model: allocate the gradient,
then allocate `x - stepsize * grad`; `x`'s array is only read. -/
def GradientDescentOptimizer.stepS (o : GradientDescentOptimizer)
    (gradVal : List ℝ → List ℝ) (st : Store) (xr : ℕ) : Store × ℕ :=
  let p := st.alloc (gradVal (st.read xr))
  p.1.alloc (List.zipWith (fun a b => a - o.stepsize * b) (p.1.read xr) (p.1.read p.2))

/-- Source `MomentumOptimizer` with its accumulation held as a store reference. -/
structure MomentumOptimizerS where
  stepsize : ℝ
  momentum : ℝ
  accumulation : Option ℕ

/-- Momentum `step` in the store model: both branches of `apply_grad` rebind
`self.accumulation` to a freshly allocated array, then `x - accumulation` is
freshly allocated. -/
def MomentumOptimizerS.stepS (o : MomentumOptimizerS) (gradVal : List ℝ → List ℝ)
    (st : Store) (xr : ℕ) : MomentumOptimizerS × Store × ℕ :=
  let p := st.alloc (gradVal (st.read xr))
  let q :=
    match o.accumulation with
    | none => p.1.alloc ((p.1.read p.2).map fun b => o.stepsize * b)
    | some ar => p.1.alloc (List.zipWith (fun a b => o.momentum * a + o.stepsize * b)
        (p.1.read ar) (p.1.read p.2))
  let r := q.1.alloc (List.zipWith (fun a b => a - b) (q.1.read xr) (q.1.read q.2))
  ({ o with accumulation := some q.2 }, r.1, r.2)

/-- Source `NesterovMomentumOptimizer` with its accumulation as a store reference. -/
structure NesterovMomentumOptimizerS where
  stepsize : ℝ
  momentum : ℝ
  accumulation : Option ℕ

/-- Nesterov `step` in the store model: with history, the shifted point
`x - momentum * accumulation` is a fresh temporary; the update rule is the
inherited Momentum one (all rebindings, no writes). -/
def NesterovMomentumOptimizerS.stepS (o : NesterovMomentumOptimizerS)
    (gradVal : List ℝ → List ℝ) (st : Store) (xr : ℕ) :
    NesterovMomentumOptimizerS × Store × ℕ :=
  match o.accumulation with
  | none =>
    let p := st.alloc (gradVal (st.read xr))
    let q := p.1.alloc ((p.1.read p.2).map fun b => o.stepsize * b)
    let r := q.1.alloc (List.zipWith (fun a b => a - b) (q.1.read xr) (q.1.read q.2))
    ({ o with accumulation := some q.2 }, r.1, r.2)
  | some ar =>
    let sh := st.alloc (List.zipWith (fun a b => a - o.momentum * b)
        (st.read xr) (st.read ar))
    let p := sh.1.alloc (gradVal (sh.1.read sh.2))
    let q := p.1.alloc (List.zipWith (fun a b => o.momentum * a + o.stepsize * b)
        (p.1.read ar) (p.1.read p.2))
    let r := q.1.alloc (List.zipWith (fun a b => a - b) (q.1.read xr) (q.1.read q.2))
    ({ o with accumulation := some q.2 }, r.1, r.2)

/-- Source `AdagradOptimizer` with its accumulation as a store reference. -/
structure AdagradOptimizerS where
  stepsize : ℝ
  accumulation : Option ℕ

/-- Adagrad `step` in the store model: the first call rebinds the accumulation
to a fresh `grad * grad`; later calls perform the source's only in-place
mutation, `self.accumulation += grad * grad`, writing through the existing
accumulation reference.  The returned array is freshly allocated. -/
def AdagradOptimizerS.stepS (o : AdagradOptimizerS) (gradVal : List ℝ → List ℝ)
    (st : Store) (xr : ℕ) : AdagradOptimizerS × Store × ℕ :=
  let p := st.alloc (gradVal (st.read xr))
  match o.accumulation with
  | none =>
    let q := p.1.alloc (List.zipWith (fun a b => a * b) (p.1.read p.2) (p.1.read p.2))
    let r := q.1.alloc (List.zipWith
        (fun a pr => a - (o.stepsize / Real.sqrt (pr.1 + 1e-8)) * pr.2)
        (q.1.read xr) ((q.1.read q.2).zip (q.1.read p.2)))
    ({ o with accumulation := some q.2 }, r.1, r.2)
  | some ar =>
    let tq := p.1.alloc (List.zipWith (fun a b => a * b) (p.1.read p.2) (p.1.read p.2))
    let s2 := tq.1.write ar (List.zipWith (fun a b => a + b)
        (tq.1.read ar) (tq.1.read tq.2))
    let r := s2.alloc (List.zipWith
        (fun a pr => a - (o.stepsize / Real.sqrt (pr.1 + 1e-8)) * pr.2)
        (s2.read xr) ((s2.read ar).zip (s2.read p.2)))
    ({ o with accumulation := some ar }, r.1, r.2)

/-- Source `RMSPropOptimizer` with its accumulation as a store reference. -/
structure RMSPropOptimizerS where
  stepsize : ℝ
  decay : ℝ
  accumulation : Option ℕ

/-- RMSProp `step` in the store model: both accumulation branches rebind to a
fresh array (no in-place update); the returned array is freshly allocated. -/
def RMSPropOptimizerS.stepS (o : RMSPropOptimizerS) (gradVal : List ℝ → List ℝ)
    (st : Store) (xr : ℕ) : RMSPropOptimizerS × Store × ℕ :=
  let p := st.alloc (gradVal (st.read xr))
  let q :=
    match o.accumulation with
    | none => p.1.alloc ((p.1.read p.2).map fun b => (1 - o.decay) * (b * b))
    | some ar => p.1.alloc (List.zipWith (fun a b => o.decay * a + (1 - o.decay) * (b * b))
        (p.1.read ar) (p.1.read p.2))
  let r := q.1.alloc (List.zipWith
      (fun a pr => a - (o.stepsize / Real.sqrt (pr.1 + 1e-8)) * pr.2)
      (q.1.read xr) ((q.1.read q.2).zip (q.1.read p.2)))
  ({ o with accumulation := some q.2 }, r.1, r.2)

/-- Source `AdamOptimizer` with its moments as store references. -/
structure AdamOptimizerS where
  stepsize : ℝ
  beta1 : ℝ
  beta2 : ℝ
  firstmoment : Option ℕ
  secondmoment : Option ℕ
  t : ℕ

/-- Adam `step` in the store model: `firstmoment = grad` on the first call
stores the gradient reference itself (an alias, no copy); every other moment
update rebinds to a fresh array; the returned array is freshly allocated.  No
write occurs. -/
def AdamOptimizerS.stepS (o : AdamOptimizerS) (gradVal : List ℝ → List ℝ)
    (st : Store) (xr : ℕ) : AdamOptimizerS × Store × ℕ :=
  let p := st.alloc (gradVal (st.read xr))
  let fm : Store × ℕ :=
    match o.firstmoment with
    | none => (p.1, p.2)
    | some mr => p.1.alloc (List.zipWith (fun a b => o.beta1 * a + (1 - o.beta1) * b)
        (p.1.read mr) (p.1.read p.2))
  let sm : Store × ℕ :=
    match o.secondmoment with
    | none => fm.1.alloc (List.zipWith (fun a b => a * b) (fm.1.read p.2) (fm.1.read p.2))
    | some mr => fm.1.alloc (List.zipWith (fun a b => o.beta2 * a + (1 - o.beta2) * (b * b))
        (fm.1.read mr) (fm.1.read p.2))
  let ast := o.stepsize * Real.sqrt (1 - o.beta2 ^ (o.t + 1)) / (1 - o.beta1 ^ (o.t + 1))
  let r := sm.1.alloc (List.zipWith (fun a pr => a - ast * pr.1 / (Real.sqrt pr.2 + 1e-8))
      (sm.1.read xr) ((sm.1.read fm.2).zip (sm.1.read sm.2)))
  ({ o with firstmoment := some fm.2, secondmoment := some sm.2, t := o.t + 1 },
    r.1, r.2)

/-- The reference returned by alloc is just past the old end of the store. -/
theorem Store.alloc_ref (s : Store) (v : List ℝ) : (s.alloc v).2 = s.arrs.length :=
  rfl

/-- C10: in the store model of every variant, `step` never mutates the
caller's array: afterwards `x`'s reference holds exactly the contents it held
before the call, and the returned reference is freshly allocated during the
call (in particular distinct from `x`'s).  Adagrad's in-place
`accumulation += grad * grad` — the source's only in-place write — targets the
optimizer-owned accumulation reference, assumed distinct from `x`'s as the
accumulation always originates from a fresh allocation. -/
theorem step_reads_x_only (gradVal : List ℝ → List ℝ) (st : Store) (xr : ℕ) :
    (∀ o : GradientDescentOptimizer, xr < st.arrs.length →
      ((o.stepS gradVal st xr).1.read xr = st.read xr
        ∧ st.arrs.length ≤ (o.stepS gradVal st xr).2
        ∧ (o.stepS gradVal st xr).2 ≠ xr))
    ∧ (∀ o : MomentumOptimizerS, xr < st.arrs.length →
      ((o.stepS gradVal st xr).2.1.read xr = st.read xr
        ∧ st.arrs.length ≤ (o.stepS gradVal st xr).2.2
        ∧ (o.stepS gradVal st xr).2.2 ≠ xr))
    ∧ (∀ o : NesterovMomentumOptimizerS, xr < st.arrs.length →
      ((o.stepS gradVal st xr).2.1.read xr = st.read xr
        ∧ st.arrs.length ≤ (o.stepS gradVal st xr).2.2
        ∧ (o.stepS gradVal st xr).2.2 ≠ xr))
    ∧ (∀ o : AdagradOptimizerS, xr < st.arrs.length →
        (∀ ar, o.accumulation = some ar → ar ≠ xr) →
      ((o.stepS gradVal st xr).2.1.read xr = st.read xr
        ∧ st.arrs.length ≤ (o.stepS gradVal st xr).2.2
        ∧ (o.stepS gradVal st xr).2.2 ≠ xr))
    ∧ (∀ o : RMSPropOptimizerS, xr < st.arrs.length →
      ((o.stepS gradVal st xr).2.1.read xr = st.read xr
        ∧ st.arrs.length ≤ (o.stepS gradVal st xr).2.2
        ∧ (o.stepS gradVal st xr).2.2 ≠ xr))
    ∧ (∀ o : AdamOptimizerS, xr < st.arrs.length →
      ((o.stepS gradVal st xr).2.1.read xr = st.read xr
        ∧ st.arrs.length ≤ (o.stepS gradVal st xr).2.2
        ∧ (o.stepS gradVal st xr).2.2 ≠ xr)) := by
  refine ⟨?_, ?_, ?_, ?_, ?_, ?_⟩
  · intro o hx
    refine ⟨?_, ?_, ?_⟩
    · simp only [GradientDescentOptimizer.stepS]
      repeat rw [Store.read_alloc_of_lt]
      all_goals try simp only [Store.length_alloc]
      all_goals omega
    · simp only [GradientDescentOptimizer.stepS, Store.alloc_ref, Store.length_alloc]
      omega
    · simp only [GradientDescentOptimizer.stepS, Store.alloc_ref, Store.length_alloc]
      omega
  · intro o hx
    obtain ⟨ss, mm, acc⟩ := o
    cases acc <;>
      refine ⟨?_, ?_, ?_⟩ <;>
        simp only [MomentumOptimizerS.stepS, Store.alloc_ref, Store.length_alloc]
    · repeat rw [Store.read_alloc_of_lt]
      all_goals try simp only [Store.length_alloc]
      all_goals omega
    · omega
    · omega
    · repeat rw [Store.read_alloc_of_lt]
      all_goals try simp only [Store.length_alloc]
      all_goals omega
    · omega
    · omega
  · intro o hx
    obtain ⟨ss, mm, acc⟩ := o
    cases acc <;>
      refine ⟨?_, ?_, ?_⟩ <;>
        simp only [NesterovMomentumOptimizerS.stepS, Store.alloc_ref, Store.length_alloc]
    · repeat rw [Store.read_alloc_of_lt]
      all_goals try simp only [Store.length_alloc]
      all_goals omega
    · omega
    · omega
    · repeat rw [Store.read_alloc_of_lt]
      all_goals try simp only [Store.length_alloc]
      all_goals omega
    · omega
    · omega
  · intro o hx hacc
    obtain ⟨ss, acc⟩ := o
    cases acc with
    | none =>
      refine ⟨?_, ?_, ?_⟩ <;>
        simp only [AdagradOptimizerS.stepS, Store.alloc_ref, Store.length_alloc]
      · repeat rw [Store.read_alloc_of_lt]
        all_goals try simp only [Store.length_alloc]
        all_goals omega
      · omega
      · omega
    | some ar =>
      have har : ar ≠ xr := hacc ar rfl
      refine ⟨?_, ?_, ?_⟩ <;>
        simp only [AdagradOptimizerS.stepS, Store.alloc_ref, Store.length_alloc,
          Store.length_write]
      · rw [Store.read_alloc_of_lt, Store.read_write_of_ne _ _ _ _ har]
        repeat rw [Store.read_alloc_of_lt]
        all_goals try simp only [Store.length_alloc, Store.length_write]
        all_goals omega
      · omega
      · omega
  · intro o hx
    obtain ⟨ss, dd, acc⟩ := o
    cases acc <;>
      refine ⟨?_, ?_, ?_⟩ <;>
        simp only [RMSPropOptimizerS.stepS, Store.alloc_ref, Store.length_alloc]
    · repeat rw [Store.read_alloc_of_lt]
      all_goals try simp only [Store.length_alloc]
      all_goals omega
    · omega
    · omega
    · repeat rw [Store.read_alloc_of_lt]
      all_goals try simp only [Store.length_alloc]
      all_goals omega
    · omega
    · omega
  · intro o hx
    obtain ⟨ss, b1, b2, fm, sm, tt⟩ := o
    cases fm <;> cases sm <;>
      refine ⟨?_, ?_, ?_⟩ <;>
        simp only [AdamOptimizerS.stepS, Store.alloc_ref, Store.length_alloc]
    all_goals first
      | omega
      | (repeat rw [Store.read_alloc_of_lt]
         all_goals try simp only [Store.length_alloc]
         all_goals omega)

/-- C10 witness: a one-array store holding `x` at reference 0; every variant's
`step` leaves that array intact and returns a fresh reference. -/
theorem step_reads_x_only_witness :
    (0 < (Store.mk [[1, 2]]).arrs.length)
    ∧ ((GradientDescentOptimizer.stepS ⟨1 / 100⟩ (fun _ => [0, 0])
          (Store.mk [[1, 2]]) 0).1.read 0 = (Store.mk [[1, 2]]).read 0
        ∧ (Store.mk [[1, 2]]).arrs.length
            ≤ (GradientDescentOptimizer.stepS ⟨1 / 100⟩ (fun _ => [0, 0])
                (Store.mk [[1, 2]]) 0).2
        ∧ (GradientDescentOptimizer.stepS ⟨1 / 100⟩ (fun _ => [0, 0])
            (Store.mk [[1, 2]]) 0).2 ≠ 0)
    ∧ ((MomentumOptimizerS.stepS ⟨1 / 100, 9 / 10, none⟩ (fun _ => [0, 0])
          (Store.mk [[1, 2]]) 0).2.1.read 0 = (Store.mk [[1, 2]]).read 0)
    ∧ ((NesterovMomentumOptimizerS.stepS ⟨1 / 100, 9 / 10, none⟩ (fun _ => [0, 0])
          (Store.mk [[1, 2]]) 0).2.1.read 0 = (Store.mk [[1, 2]]).read 0)
    ∧ ((AdagradOptimizerS.stepS ⟨1 / 100, none⟩ (fun _ => [0, 0])
          (Store.mk [[1, 2]]) 0).2.1.read 0 = (Store.mk [[1, 2]]).read 0)
    ∧ ((RMSPropOptimizerS.stepS ⟨1 / 100, 9 / 10, none⟩ (fun _ => [0, 0])
          (Store.mk [[1, 2]]) 0).2.1.read 0 = (Store.mk [[1, 2]]).read 0)
    ∧ ((AdamOptimizerS.stepS ⟨1 / 100, 9 / 10, 99 / 100, none, none, 0⟩
          (fun _ => [0, 0]) (Store.mk [[1, 2]]) 0).2.1.read 0
        = (Store.mk [[1, 2]]).read 0) :=
  ⟨by simp [Store.mk.injEq],
   (step_reads_x_only (fun _ => [0, 0]) (Store.mk [[1, 2]]) 0).1 ⟨1 / 100⟩
     (by simp),
   ((step_reads_x_only (fun _ => [0, 0]) (Store.mk [[1, 2]]) 0).2.1
     ⟨1 / 100, 9 / 10, none⟩ (by simp)).1,
   ((step_reads_x_only (fun _ => [0, 0]) (Store.mk [[1, 2]]) 0).2.2.1
     ⟨1 / 100, 9 / 10, none⟩ (by simp)).1,
   ((step_reads_x_only (fun _ => [0, 0]) (Store.mk [[1, 2]]) 0).2.2.2.1
     ⟨1 / 100, none⟩ (by simp) (fun ar h => nomatch h)).1,
   ((step_reads_x_only (fun _ => [0, 0]) (Store.mk [[1, 2]]) 0).2.2.2.2.1
     ⟨1 / 100, 9 / 10, none⟩ (by simp)).1,
   ((step_reads_x_only (fun _ => [0, 0]) (Store.mk [[1, 2]]) 0).2.2.2.2.2
     ⟨1 / 100, 9 / 10, 99 / 100, none, none, 0⟩ (by simp)).1⟩

end
